import Mathlib

/-!
Verification of the ai-proxy NG-word moderation pipeline.

This file gives a shallow embedding of the moderation middleware of
`src/ngWordChecker.ts` (class `NGWordChecker`): content extraction from a
chat-completion request body, the two-tier moderation decision (keyword
substring match plus an optional LLM classifier call), the classifier
audit writes (`db.insertLLMRequest` payloads), and the synthesized
blocked responses (streaming SSE frames and the non-streaming JSON
object).  Effects are made explicit: the classifier HTTP call and the
JSON parse are oracles carried in an environment record, the audit-store
writes are returned as data, and clock reads are parameters.
-/

namespace AIProxy

/-! ## JavaScript string primitives

`String.prototype.toLowerCase` is modelled as a character-wise lowercase
fold (the spec only requires a simple fold), and
`String.prototype.includes` as a substring scan over the character
list. -/

/-- Character-wise lowercase fold, modelling `s.toLowerCase()`. -/
def toLowerJS (s : String) : String := String.mk (s.data.map Char.toLower)

/-- Model of `s.substring(0, n)`: the first `n` characters. -/
def jsSubstring (s : String) (n : Nat) : String := String.mk (s.data.take n)

/-- Does the candidate list match at the head of the haystack list? -/
def headMatches : List Char → List Char → Bool
  | [], _ => true
  | _ :: _, [] => false
  | a :: as, b :: bs => a == b && headMatches as bs

/-- Substring scan: does `needle` occur contiguously inside `hay`? -/
def containsSub (hay needle : List Char) : Bool :=
  match hay with
  | [] => needle.isEmpty
  | _ :: t => headMatches needle hay || containsSub t needle

/-- Model of `hay.includes(needle)` on JavaScript strings. -/
def jsIncludes (hay needle : String) : Bool :=
  containsSub hay.data needle.data

theorem headMatches_iff (n h : List Char) :
    headMatches n h = true ↔ n <+: h := by
  induction n generalizing h with
  | nil => simp [headMatches, List.nil_prefix]
  | cons a as ih =>
    cases h with
    | nil => simp [headMatches, List.prefix_nil]
    | cons b bs => simp [headMatches, ih, List.cons_prefix_cons]

theorem containsSub_iff (h n : List Char) :
    containsSub h n = true ↔ n <:+: h := by
  induction h with
  | nil => simp [containsSub, List.isEmpty_iff, List.infix_nil]
  | cons b t ih =>
    simp [containsSub, headMatches_iff, ih, List.infix_cons_iff]

/-- Model of `hay.includes(needle)` agrees with list infixes. -/
theorem jsIncludes_iff (hay needle : String) :
    jsIncludes hay needle = true ↔ needle.data <:+: hay.data :=
  containsSub_iff hay.data needle.data

/-! ## Keyword matcher (`NGWordChecker.checkContent`)

The policy word list is the `word` column of `ng_words` in stored
(id-ascending) order, as `loadNGWords` reads it via
`db.getAllNGWords()`. -/

/-- Loop body of `checkContent`: first word in stored order whose
lowercase fold occurs in the (already folded) content. -/
def checkContentAux (lowerContent : String) : List String → Option String
  | [] => none
  | w :: ws =>
    if jsIncludes lowerContent (toLowerJS w) then some w
    else checkContentAux lowerContent ws

/-- Model of `NGWordChecker.checkContent`: case-insensitive first-match
substring search over the stored policy word list. -/
def checkContent (ngWords : List String) (content : String) : Option String :=
  checkContentAux (toLowerJS content) ngWords

/-- A returned match is always one of the stored policy words. -/
theorem checkContent_mem {ngWords : List String} {content w : String}
    (h : checkContent ngWords content = some w) : w ∈ ngWords := by
  unfold checkContent at h
  induction ngWords with
  | nil => simp [checkContentAux] at h
  | cons x xs ih =>
    unfold checkContentAux at h
    by_cases hx : jsIncludes (toLowerJS content) (toLowerJS x) = true
    · simp [hx] at h; simp [h]
    · simp [hx] at h; exact List.mem_cons_of_mem x (ih h)

/-! ## Request body data model and content extraction

Typed embedding of the JSON shapes the middleware distinguishes.  A
message `content` field is `none` when absent or JavaScript-falsy
(`undefined`, `null`, `0`, `false`); a present truthy value is a plain
string, an array of typed parts, or some other truthy value (`other`).
The empty string is kept as `str ""` so that the falsiness test of
`if (!latestUserMessage.content)` is modelled explicitly. -/

/-- One element of a multimodal `content` array: its `type` tag and its
optional `text` field. -/
structure ContentItem where
  type : String
  text : Option String
deriving DecidableEq, Repr

/-- The mapper of `ngWordChecker.ts` lines 193-198: a part contributes
its `text` when `item.type === 'text' && item.text` is truthy, and the
empty string otherwise. -/
def itemText (it : ContentItem) : String :=
  if it.type == "text" then
    match it.text with
    | some t => if t == "" then "" else t
    | none => ""
  else ""

/-- A truthy message `content` value. -/
inductive MsgContent where
  | str (s : String)
  | parts (items : List ContentItem)
  | other
deriving DecidableEq, Repr

/-- One entry of the `messages` array. -/
structure ChatMessage where
  role : String
  content : Option MsgContent
deriving DecidableEq, Repr

/-- JavaScript falsiness of a message content value: absent, or the
empty string.  (Other falsy JSON values are folded into `none`.) -/
def contentFalsy : Option MsgContent → Bool
  | none => true
  | some (.str s) => s == ""
  | some _ => false

/-- The request body fields the middleware reads.  `prompt` and `model`
are `none` when absent; `stream` records the JSON boolean when the field
holds one. -/
structure RequestBody where
  messages : Option (List ChatMessage)
  prompt : Option String
  stream : Option Bool
  model : Option String
deriving DecidableEq, Repr

/-- Result of the extraction phase: either a string to moderate, or a
short-circuit to `next()` with no moderation at all. -/
inductive Extracted where
  | skip
  | content (s : String)
deriving DecidableEq, Repr

/-- Model of the extraction phase of `NGWordChecker.middleware`
(lines 171-208): pick the last user-role message, use string content
as-is, reduce array content by the part mapper joined with single
spaces, fall back to `prompt`, and otherwise skip moderation. -/
def extractContent (body : RequestBody) : Extracted :=
  match body.messages with
  | some msgs =>
    let userMessages := msgs.filter (fun m => m.role == "user")
    match userMessages.getLast? with
    | none => .skip
    | some latest =>
      if contentFalsy latest.content then .skip
      else
        match latest.content with
        | some (.str s) => .content s
        | some (.parts items) =>
            .content (String.intercalate " " (items.map itemText))
        | _ => .skip
  | none =>
    match body.prompt with
    | some p => if p == "" then .skip else .content p
    | none => .skip

/-! ## Semantic classifier tier (`NGWordChecker.checkWithLLM`)

The outbound HTTP call, the wall clock and `JSON.parse` are oracles in
an `LLMEnv`; the `db.insertLLMRequest` writes are returned as a list of
payload records, so the classifier-audit log of one invocation is plain
data. -/

/-- JavaScript truthiness filter on an optional string: `some ""` and
`none` are both falsy. -/
def jsStrTruthy : Option String → Option String
  | none => none
  | some s => if s == "" then none else some s

/-- The parsed classifier verdict (interface `LLMCheckResult`). -/
structure LLMCheckResult where
  blocked : Bool
  matched_word : Option String
  reason : String
deriving DecidableEq, Repr

/-- Payload of one `db.insertLLMRequest` call (a classifier-audit
entry). -/
structure LLMRequestEntry where
  timestamp : String
  request_content : String
  ng_words_checked : String
  blocked : Bool
  matched_word : Option String
  reason : String
  duration : Nat
deriving DecidableEq, Repr

/-- Outcome of the single `fetch` to the Gemini endpoint.  `fetchError`
covers a rejected promise (network error, and also a failing
`response.json()`); `response` carries `ok`, `status`, and the text
already drilled out of `candidates[0].content.parts[0].text` with its
`|| ''` default. -/
inductive FetchResult where
  | fetchError
  | response (ok : Bool) (status : Nat) (respText : String)
deriving DecidableEq, Repr

/-- Oracles for one classifier invocation: the fetch outcome, the
behavior of `JSON.parse` on the brace-matched substring (`none` models a
thrown `SyntaxError`), the stringified thrown error, the measured call
latency and the ISO timestamp. -/
structure LLMEnv where
  fetchResult : FetchResult
  parse : String → Option LLMCheckResult
  errText : String
  duration : Nat
  timestamp : String

/-- The checker configuration read from the environment at construction
(`GEMINI_API_KEY || null`, `LLM_CHECK_ENABLED === 'true'`). -/
structure LLMConfig where
  geminiApiKey : Option String
  llmCheckEnabled : Bool
deriving DecidableEq, Repr

/-- Opening brace character. -/
def lbraceC : Char := Char.ofNat 123

/-- Closing brace character. -/
def rbraceC : Char := Char.ofNat 125

/-- Model of `text.match(/\x7b[\s\S]*\x7d/)`: the greedy regex matches
from the first opening brace to the last closing brace, when the latter
comes after the former. -/
def braceMatch (cs : List Char) : Option (List Char) :=
  match cs.findIdx? (· == lbraceC) with
  | none => none
  | some i =>
    match cs.reverse.findIdx? (· == rbraceC) with
    | none => none
    | some rj =>
      let j := cs.length - 1 - rj
      if i < j then some ((cs.drop i).take (j - i + 1)) else none

/-- Model of `NGWordChecker.checkWithLLM`: returns the verdict together
with the list of classifier-audit entries written during the call.  The
guard clause (no API key, or an empty word list) returns a clean verdict
and writes nothing. -/
def checkWithLLM (cfg : LLMConfig) (ngWords : List String)
    (content : String) (env : LLMEnv) :
    LLMCheckResult × List LLMRequestEntry :=
  if cfg.geminiApiKey.isNone || ngWords.isEmpty then
    (⟨false, none, ""⟩, [])
  else
    let ngWordsChecked := String.intercalate ", " ngWords
    let base : LLMRequestEntry :=
      { timestamp := env.timestamp
        request_content := jsSubstring content 500
        ng_words_checked := ngWordsChecked
        blocked := false
        matched_word := none
        reason := ""
        duration := env.duration }
    match env.fetchResult with
    | .fetchError =>
        (⟨false, none, "Error"⟩,
         [{ base with reason := "Error: " ++ env.errText }])
    | .response ok status respText =>
      if !ok then
        (⟨false, none, "API error"⟩,
         [{ base with reason := "API error: " ++ toString status }])
      else
        match braceMatch respText.data with
        | some js =>
          match env.parse (String.mk js) with
          | some r =>
            (r, [{ base with
                    blocked := r.blocked
                    matched_word := jsStrTruthy r.matched_word
                    reason := r.reason }])
          | none =>
            (⟨false, none, "Error"⟩,
             [{ base with reason := "Error: " ++ env.errText }])
        | none =>
          (⟨false, none, "Parse error"⟩,
           [{ base with reason := "Parse error" }])

/-! ## JSON serialization of the synthesized chunks

`JSON.stringify` on the fixed chunk shapes of the middleware, with
object keys in insertion order and standard JSON string escaping. -/

/-- Lowercase hexadecimal digit. -/
def hexDigitCh (n : Nat) : Char :=
  if n < 10 then Char.ofNat (48 + n) else Char.ofNat (87 + n)

/-- JSON escape of one character, as `JSON.stringify` performs it. -/
def escapeJSONChar (c : Char) : String :=
  if c.toNat = 34 then "\\\""
  else if c.toNat = 92 then "\\\\"
  else if c.toNat = 8 then "\\b"
  else if c.toNat = 9 then "\\t"
  else if c.toNat = 10 then "\\n"
  else if c.toNat = 12 then "\\f"
  else if c.toNat = 13 then "\\r"
  else if c.toNat < 32 then
    "\\u00" ++ String.mk [hexDigitCh (c.toNat / 16), hexDigitCh (c.toNat % 16)]
  else String.singleton c

/-- JSON string literal for `s` (quotes plus escaped body). -/
def jsonStr (s : String) : String :=
  "\"" ++ String.join (s.data.map escapeJSONChar) ++ "\""

/-- Serialization of the first streamed chunk (assistant role and the
full refusal text in the delta, finish_reason null). -/
def sseChunk1 (id : String) (created : Nat) (model msg : String) : String :=
  "\x7b\"id\":" ++ jsonStr id ++
  ",\"object\":\"chat.completion.chunk\",\"created\":" ++ toString created ++
  ",\"model\":" ++ jsonStr model ++
  ",\"choices\":[\x7b\"index\":0,\"delta\":\x7b\"role\":\"assistant\",\"content\":" ++
  jsonStr msg ++ "\x7d,\"finish_reason\":null\x7d]\x7d"

/-- Serialization of the second streamed chunk (empty delta,
finish_reason stop). -/
def sseChunk2 (id : String) (created : Nat) (model : String) : String :=
  "\x7b\"id\":" ++ jsonStr id ++
  ",\"object\":\"chat.completion.chunk\",\"created\":" ++ toString created ++
  ",\"model\":" ++ jsonStr model ++
  ",\"choices\":[\x7b\"index\":0,\"delta\":\x7b\x7d,\"finish_reason\":\"stop\"\x7d]\x7d"

/-! ## Synthesized non-streaming response -/

/-- The assistant message inside the single choice. -/
structure ChoiceMessage where
  role : String
  content : String
deriving DecidableEq, Repr

/-- One choice of the synthesized completion. -/
structure CompletionChoice where
  index : Nat
  message : ChoiceMessage
  finish_reason : String
deriving DecidableEq, Repr

/-- The usage block of the synthesized completion. -/
structure Usage where
  prompt_tokens : Nat
  completion_tokens : Nat
  total_tokens : Nat
deriving DecidableEq, Repr

/-- The synthesized non-streaming blocked response object. -/
structure BlockedResponse where
  id : String
  object : String
  created : Nat
  model : String
  choices : List CompletionChoice
  usage : Usage
deriving DecidableEq, Repr

/-! ## Moderation decision and middleware pipeline -/

/-- Outcome of the decision phase (the local variables `foundNGWord`,
`blockedByLLM`, `llmReason` after lines 210-224), plus whether the
classifier was invoked and the classifier-audit entries written. -/
structure ModerationOutcome where
  found : Option String
  blockedByLLM : Bool
  llmReason : String
  llmInvoked : Bool
  llmAudits : List LLMRequestEntry
deriving DecidableEq, Repr

/-- The decision phase with no moderation run at all. -/
def noModeration : ModerationOutcome :=
  { found := none, blockedByLLM := false, llmReason := ""
    llmInvoked := false, llmAudits := [] }

/-- Model of middleware lines 210-224: keyword tier first; the LLM tier
runs only when the keyword result is falsy, an API key is configured and
the feature flag is on; an LLM verdict overrides the variables only when
it blocks. -/
def moderate (cfg : LLMConfig) (ngWords : List String) (content : String)
    (env : LLMEnv) : ModerationOutcome :=
  let kw := checkContent ngWords content
  let invoke := (jsStrTruthy kw).isNone && cfg.geminiApiKey.isSome &&
    cfg.llmCheckEnabled
  if invoke then
    let r := checkWithLLM cfg ngWords content env
    if r.1.blocked then
      { found := r.1.matched_word, blockedByLLM := true
        llmReason := r.1.reason, llmInvoked := true, llmAudits := r.2 }
    else
      { found := kw, blockedByLLM := false, llmReason := ""
        llmInvoked := true, llmAudits := r.2 }
  else
    { found := kw, blockedByLLM := false, llmReason := ""
      llmInvoked := false, llmAudits := [] }

/-- The per-request effect environment: the classifier oracles, whether
the two audit-store operations succeed (a `false` models a thrown
persistence error), and the `Date.now()` reading during response
synthesis. -/
structure MwEnv where
  llm : LLMEnv
  insertOk : Bool
  updateOk : Bool
  now : Nat

/-- Observable outcome of one middleware run: pass the request on to
the proxy, emit the streamed refusal frames (aborted when the audit
update throws after the frames were already written), or send the
non-streaming blocked JSON. -/
inductive MwOutcome where
  | forwarded
  | streamed (headers : List (String × String)) (writes : List String)
  | streamedAborted (headers : List (String × String)) (writes : List String)
  | jsonBlocked (status : Nat) (resp : BlockedResponse)
deriving DecidableEq, Repr

/-- Full result of one middleware run. -/
structure MwResult where
  outcome : MwOutcome
  moderation : ModerationOutcome
deriving DecidableEq, Repr

/-- Detection-method suffix of the refusal message. -/
def detectionText (byLLM : Bool) (reason : String) : String :=
  if byLLM then "（LLM検出: " ++ reason ++ "）" else ""

/-- The synthesized refusal message naming the matched term. -/
def friendlyMessage (word detection : String) : String :=
  "申し訳ございません。このリクエストには不適切な表現（「" ++ word ++
  "」）が含まれているため、処理できませんでした。" ++ detection ++
  "\n\n別の表現で質問していただけますか？"

/-- Falsy `model` fields fall back to the literal `unknown`. -/
def jsModelName : Option String → String
  | none => "unknown"
  | some m => if m == "" then "unknown" else m

/-- The three SSE headers set on a streamed refusal, in order. -/
def sseHeaders : List (String × String) :=
  [("Content-Type", "text/event-stream"), ("Cache-Control", "no-cache"),
   ("Connection", "keep-alive")]

/-- Model of middleware lines 246-343: synthesize the blocked response
once the audit insert has succeeded.  Streaming writes the two chunk
frames and the done sentinel before the audit update; non-streaming
performs the audit update before sending the JSON body. -/
def respond (b : RequestBody) (w : String) (m : ModerationOutcome)
    (env : MwEnv) : MwResult :=
  let msg := friendlyMessage w (detectionText m.blockedByLLM m.llmReason)
  let modelName := jsModelName b.model
  let sid := "blocked-" ++ toString env.now
  let created := env.now / 1000
  if b.stream == some true then
    let writes := ["data: " ++ sseChunk1 sid created modelName msg ++ "\n\n",
                   "data: " ++ sseChunk2 sid created modelName ++ "\n\n",
                   "data: [DONE]\n\n"]
    if env.updateOk then ⟨.streamed sseHeaders writes, m⟩
    else ⟨.streamedAborted sseHeaders writes, m⟩
  else
    if env.updateOk then
      ⟨.jsonBlocked 200
        { id := sid, object := "chat.completion", created := created
          model := modelName
          choices := [{ index := 0
                        message := { role := "assistant", content := msg }
                        finish_reason := "stop" }]
          usage := { prompt_tokens := 0, completion_tokens := 0
                     total_tokens := 0 } }, m⟩
    else ⟨.forwarded, m⟩

/-- Model of one full run of `NGWordChecker.middleware`: extraction,
two-tier decision, truthiness gate on the found word, then either the
synthesized refusal or `next()`.  A thrown audit insert is caught by the
surrounding try/catch, after which control falls through to `next()`:
the request is forwarded. -/
def middlewareStep (cfg : LLMConfig) (ngWords : List String)
    (body : Option RequestBody) (env : MwEnv) : MwResult :=
  match body with
  | none => ⟨.forwarded, noModeration⟩
  | some b =>
    match extractContent b with
    | .skip => ⟨.forwarded, noModeration⟩
    | .content s =>
      let m := moderate cfg ngWords s env.llm
      match jsStrTruthy m.found with
      | none => ⟨.forwarded, m⟩
      | some w =>
        if env.insertOk then respond b w m env
        else ⟨.forwarded, m⟩

/-! ## Shared helper lemmas -/

/-- If the empty string is not a stored policy word, the truthiness
filter on the keyword result is the identity. -/
theorem jsStrTruthy_checkContent {ngWords : List String} {s : String}
    (hne : "" ∉ ngWords) :
    jsStrTruthy (checkContent ngWords s) = checkContent ngWords s := by
  cases h : checkContent ngWords s with
  | none => rfl
  | some w =>
    have hmem := checkContent_mem h
    have hw : ¬ w == "" := by
      simp only [beq_iff_eq]
      intro he; exact hne (he ▸ hmem)
    simp [jsStrTruthy, hw]

/-- The moderation part of a middleware run on extracted content is
exactly the decision phase. -/
theorem middlewareStep_moderation (cfg : LLMConfig) (ngWords : List String)
    (b : RequestBody) (s : String) (env : MwEnv)
    (hext : extractContent b = .content s) :
    (middlewareStep cfg ngWords (some b) env).moderation =
      moderate cfg ngWords s env.llm := by
  simp only [middlewareStep, hext]
  cases h : jsStrTruthy (moderate cfg ngWords s env.llm).found with
  | none => rfl
  | some w =>
    by_cases hins : env.insertOk = true
    · simp only [hins, if_true]
      simp only [respond]
      split
      · split <;> rfl
      · split <;> rfl
    · simp only [Bool.not_eq_true] at hins
      simp [hins]

/-- The classifier-invocation flag of the decision phase is exactly the
guard of middleware line 216. -/
theorem moderate_llmInvoked (cfg : LLMConfig) (ngWords : List String)
    (content : String) (env : LLMEnv) :
    (moderate cfg ngWords content env).llmInvoked =
      ((jsStrTruthy (checkContent ngWords content)).isNone &&
        cfg.geminiApiKey.isSome && cfg.llmCheckEnabled) := by
  simp only [moderate]
  split
  · rename_i hinv
    split <;> simp [hinv]
  · rename_i hinv
    simp only [Bool.not_eq_true] at hinv
    simp [hinv]

/-! ## Claim theorems -/

/-- C3: for every text T and policy word W whose lowercase fold occurs
as a substring of the lowercase fold of T, the keyword match returns a
word: the first one in the stored order whose fold is a substring of the
fold of T, with its stored casing (the returned word is an element of
the stored list, every stored word before it fails the substring test,
and the returned word itself passes it). -/
theorem keyword_match_first_stored_word
    (ngWords : List String) (T W : String)
    (hW : W ∈ ngWords)
    (hsub : (toLowerJS W).data <:+: (toLowerJS T).data) :
    ∃ w l₁ l₂, checkContent ngWords T = some w ∧
      ngWords = l₁ ++ w :: l₂ ∧
      (toLowerJS w).data <:+: (toLowerJS T).data ∧
      ∀ w' ∈ l₁, ¬ (toLowerJS w').data <:+: (toLowerJS T).data := by
  induction ngWords with
  | nil => cases hW
  | cons x xs ih =>
    by_cases hx : jsIncludes (toLowerJS T) (toLowerJS x) = true
    · refine ⟨x, [], xs, ?_, rfl, (jsIncludes_iff _ _).mp hx, by simp⟩
      simp [checkContent, checkContentAux, hx]
    · have hWxs : W ∈ xs := by
        rcases List.mem_cons.mp hW with rfl | h
        · exact absurd ((jsIncludes_iff _ _).mpr hsub) hx
        · exact h
      obtain ⟨w, l₁, l₂, h1, h2, h3, h4⟩ := ih hWxs
      refine ⟨w, x :: l₁, l₂, ?_, by simp [h2], h3, ?_⟩
      · simpa [checkContent, checkContentAux, hx] using h1
      · intro w' hw'
        rcases List.mem_cons.mp hw' with rfl | h
        · exact fun hc => hx ((jsIncludes_iff _ _).mpr hc)
        · exact h4 w' h

/-- C3 witness: the policy word Bad occurs case-insensitively in the
text, and the match returns it with its stored casing. -/
theorem keyword_match_first_stored_word_witness :
    ∃ w l₁ l₂, checkContent ["Bad"] "this is BAD stuff" = some w ∧
      ["Bad"] = l₁ ++ w :: l₂ ∧
      (toLowerJS w).data <:+: (toLowerJS "this is BAD stuff").data ∧
      ∀ w' ∈ l₁, ¬ (toLowerJS w').data <:+: (toLowerJS "this is BAD stuff").data :=
  keyword_match_first_stored_word ["Bad"] "this is BAD stuff" "Bad"
    (by decide) (by decide)

/-- The multimodal request body of the C2 example. -/
def multimodalBody : RequestBody :=
  { messages := some [⟨"user", some (.parts
        [⟨"text", some "a"⟩, ⟨"image", none⟩, ⟨"text", some "b"⟩])⟩],
    prompt := none, stream := none, model := none }

/-- C2 counterexample: the multimodal content
text a / image / text b extracts to the string a-space-space-b, not to
a-space-b: the mapper sends the image part to the empty string and the
join over all three parts keeps its two separators. -/
theorem multimodal_extraction_not_single_space :
    extractContent multimodalBody = .content "a  b" ∧
    ("a  b" : String) ≠ "a b" := by
  constructor
  · rfl
  · decide

/-- C2 amended: for a last user message whose content is a list of typed
parts, extraction maps every part to its text when the part is tagged
text with a truthy text field and to the empty string otherwise, and
joins the images of all parts (not only the text ones) with a single
space; discarded parts therefore leave empty slots between separators,
and the example of the claim extracts to a-double-space-b. -/
theorem multimodal_extraction_map_join
    (body : RequestBody) (msgs : List ChatMessage) (latest : ChatMessage)
    (items : List ContentItem)
    (hmsgs : body.messages = some msgs)
    (hlast : (msgs.filter (fun m => m.role == "user")).getLast? = some latest)
    (hcontent : latest.content = some (.parts items)) :
    extractContent body = .content (String.intercalate " " (items.map itemText)) := by
  unfold extractContent
  rw [hmsgs]
  simp [hlast, hcontent, contentFalsy]

/-- C2 amended witness: the amended extraction rule evaluated at the
example of the claim. -/
theorem multimodal_extraction_map_join_witness :
    extractContent multimodalBody = .content "a  b" :=
  multimodal_extraction_map_join multimodalBody _ _ _ rfl rfl rfl

/-- C10: when the last user message content is absent or the empty
string, moderation is skipped entirely: for every configuration, policy
word list and effect environment the request is forwarded with no
moderation run, so the empty string is never evaluated against the
policy set. -/
theorem falsy_content_skips_moderation
    (cfg : LLMConfig) (ngWords : List String) (env : MwEnv)
    (b : RequestBody) (msgs : List ChatMessage) (latest : ChatMessage)
    (hmsgs : b.messages = some msgs)
    (hlast : (msgs.filter (fun m => m.role == "user")).getLast? = some latest)
    (hfalsy : latest.content = none ∨ latest.content = some (.str "")) :
    middlewareStep cfg ngWords (some b) env = ⟨.forwarded, noModeration⟩ := by
  have hext : extractContent b = .skip := by
    unfold extractContent
    rw [hmsgs]
    rcases hfalsy with h | h <;> simp [hlast, h, contentFalsy]
  simp only [middlewareStep, hext]

/-- A request whose last user message carries the empty string as its
content, while the policy set contains the empty word that would match
it. -/
def emptyContentBody : RequestBody :=
  { messages := some [{ role := "user", content := some (.str "") }]
    prompt := none, stream := none, model := none }

/-- A concrete effect environment: fetch fails, parses reject, audit
succeeds. -/
def envFetchErr : LLMEnv :=
  { fetchResult := .fetchError, parse := fun _ => none, errText := "boom"
    duration := 7, timestamp := "2024-01-01T00:00:00.000Z" }

/-- A concrete middleware environment with all audit writes succeeding. -/
def mwEnvOk : MwEnv :=
  { llm := envFetchErr, insertOk := true, updateOk := true
    now := 1700000000000 }

/-- C10 witness: empty-string content is forwarded unmoderated even when
the policy set holds the empty word, which would match it. -/
theorem falsy_content_skips_moderation_witness :
    middlewareStep ⟨some "key", true⟩ [""] (some emptyContentBody) mwEnvOk =
      ⟨.forwarded, noModeration⟩ :=
  falsy_content_skips_moderation ⟨some "key", true⟩ [""] mwEnvOk
    emptyContentBody _ _ rfl rfl (Or.inr rfl)

/-- The response synthesizer reads only the stream flag and the model
name of the request body. -/
theorem respond_congr (b b' : RequestBody) (w : String)
    (m : ModerationOutcome) (env : MwEnv)
    (hs : b.stream = b'.stream) (hm : b.model = b'.model) :
    respond b w m env = respond b' w m env := by
  unfold respond
  rw [hs, hm]

/-- C4: moderation reads only the last user-role entry of the messages
array.  If no user entry exists the request is forwarded unmoderated;
otherwise the whole middleware result is unchanged when every message
except the last user entry is deleted, so policy-word content in earlier
user turns or in non-user turns can never cause a block. -/
theorem only_last_user_turn_matters
    (cfg : LLMConfig) (ngWords : List String) (env : MwEnv)
    (b : RequestBody) (msgs : List ChatMessage)
    (hmsgs : b.messages = some msgs) :
    ((msgs.filter (fun m => m.role == "user")).getLast? = none →
      middlewareStep cfg ngWords (some b) env = ⟨.forwarded, noModeration⟩) ∧
    (∀ latest, (msgs.filter (fun m => m.role == "user")).getLast? = some latest →
      middlewareStep cfg ngWords (some b) env =
        middlewareStep cfg ngWords
          (some { b with messages := some [latest] }) env) := by
  constructor
  · intro hnone
    have hext : extractContent b = .skip := by
      unfold extractContent
      rw [hmsgs]
      simp [hnone]
    simp only [middlewareStep, hext]
  · intro latest hlast
    have hmem : latest ∈ msgs.filter (fun m => m.role == "user") :=
      List.mem_of_mem_getLast? (Option.mem_def.mpr hlast)
    have hrole : (latest.role == "user") = true :=
      List.of_mem_filter (p := fun (m : ChatMessage) => m.role == "user") hmem
    have hext : extractContent { b with messages := some [latest] } =
        extractContent b := by
      conv_rhs => rw [extractContent, hmsgs]
      conv_lhs => rw [extractContent]
      simp [List.filter, hrole, hlast]
    simp only [middlewareStep, hext]
    split
    · rfl
    · split
      · rfl
      · by_cases hins : env.insertOk = true
        · simp only [hins, if_true]
          exact respond_congr b _ _ _ env rfl rfl
        · simp only [Bool.not_eq_true] at hins
          simp [hins]

/-- A conversation whose first user turn contains a policy word and
whose final user turn is clean. -/
def twoTurnBody : RequestBody :=
  { messages := some
      [⟨"user", some (.str "some bad text")⟩,
       ⟨"assistant", some (.str "sure")⟩,
       ⟨"user", some (.str "hello again")⟩],
    prompt := none, stream := none, model := some "gpt-4o" }

/-- C4 witness: with the policy word bad in the first user turn only,
the middleware result equals the result on the conversation reduced to
its final user turn. -/
theorem only_last_user_turn_matters_witness :
    middlewareStep ⟨none, false⟩ ["bad"] (some twoTurnBody) mwEnvOk =
      middlewareStep ⟨none, false⟩ ["bad"]
        (some { twoTurnBody with
                  messages := some [⟨"user", some (.str "hello again")⟩] })
        mwEnvOk :=
  (only_last_user_turn_matters ⟨none, false⟩ ["bad"] mwEnvOk twoTurnBody _
    rfl).2 ⟨"user", some (.str "hello again")⟩ (by decide)

/-- C5: the classifier tier runs if and only if the keyword tier found
no match, an API key is configured and the feature flag is enabled; and
whenever the keyword tier finds a word, the decision variables carry
that word with the keyword source (not the classifier verdict): LLM flag
false, empty reason, classifier never invoked and no classifier audit
written.  The policy set is assumed not to contain the empty word. -/
theorem classifier_gating
    (cfg : LLMConfig) (ngWords : List String) (env : MwEnv)
    (b : RequestBody) (s : String)
    (hne : "" ∉ ngWords)
    (hext : extractContent b = .content s) :
    ((middlewareStep cfg ngWords (some b) env).moderation.llmInvoked = true ↔
      (checkContent ngWords s = none ∧ cfg.geminiApiKey.isSome = true ∧
        cfg.llmCheckEnabled = true)) ∧
    (∀ w, checkContent ngWords s = some w →
      (middlewareStep cfg ngWords (some b) env).moderation =
        { found := some w, blockedByLLM := false, llmReason := ""
          llmInvoked := false, llmAudits := [] }) := by
  rw [middlewareStep_moderation cfg ngWords b s env hext]
  constructor
  · rw [moderate_llmInvoked, jsStrTruthy_checkContent hne]
    simp [Option.isNone_iff_eq_none, and_assoc]
  · intro w hw
    have hmem := checkContent_mem hw
    have hwne : ¬ (w == "") = true := by
      simp only [beq_iff_eq]
      intro he; exact hne (he ▸ hmem)
    unfold moderate
    rw [hw]
    simp [jsStrTruthy, hwne]

/-- C5 witness: with a key configured and the flag on, a clean prompt
invokes the classifier, and a matching prompt short-circuits it with the
keyword verdict. -/
theorem classifier_gating_witness :
    (((middlewareStep ⟨some "key", true⟩ ["bad"]
        (some ⟨none, some "hello", none, none⟩) mwEnvOk).moderation.llmInvoked
          = true ↔
      (checkContent ["bad"] "hello" = none ∧
        (some "key" : Option String).isSome = true ∧ true = true)) ∧
    (∀ w, checkContent ["bad"] "hello" = some w →
      (middlewareStep ⟨some "key", true⟩ ["bad"]
        (some ⟨none, some "hello", none, none⟩) mwEnvOk).moderation =
        { found := some w, blockedByLLM := false, llmReason := ""
          llmInvoked := false, llmAudits := [] })) :=
  classifier_gating ⟨some "key", true⟩ ["bad"] mwEnvOk
    ⟨none, some "hello", none, none⟩ "hello" (by decide) rfl

/-- C6: every failing classifier invocation — network error, non-success
HTTP status, a response with no brace-delimited substring, or one whose
brace-delimited substring does not parse as JSON — yields a non-blocking
verdict with a nonempty diagnostic reason, and a request whose keyword
tier found nothing is then forwarded (fail-open). -/
theorem classifier_failure_fail_open
    (cfg : LLMConfig) (ngWords : List String) (content : String)
    (env : LLMEnv)
    (hkey : cfg.geminiApiKey.isSome = true) (hw : ngWords ≠ [])
    (hfail : env.fetchResult = .fetchError ∨
      (∃ st txt, env.fetchResult = .response false st txt) ∨
      (∃ st txt, env.fetchResult = .response true st txt ∧
        braceMatch txt.data = none) ∨
      (∃ st txt js, env.fetchResult = .response true st txt ∧
        braceMatch txt.data = some js ∧ env.parse (String.mk js) = none)) :
    (checkWithLLM cfg ngWords content env).1.blocked = false ∧
    (checkWithLLM cfg ngWords content env).1.reason ≠ "" ∧
    (∀ (b : RequestBody) (menv : MwEnv), menv.llm = env →
      extractContent b = .content content →
      checkContent ngWords content = none →
      (middlewareStep cfg ngWords (some b) menv).outcome = .forwarded) := by
  have hkey' : cfg.geminiApiKey.isNone = false := by
    cases h : cfg.geminiApiKey
    · rw [h] at hkey; cases hkey
    · rfl
  have hw' : ngWords.isEmpty = false := by
    cases ngWords
    · exact absurd rfl hw
    · rfl
  have hres : (checkWithLLM cfg ngWords content env).1.blocked = false ∧
      (checkWithLLM cfg ngWords content env).1.reason ≠ "" := by
    unfold checkWithLLM
    simp only [hkey', hw', Bool.or_self, Bool.false_eq_true, if_false]
    rcases hfail with h | ⟨st, txt, h⟩ | ⟨st, txt, h, hbm⟩ |
        ⟨st, txt, js, h, hbm, hp⟩
    · rw [h]
      refine ⟨rfl, ?_⟩
      show ("Error" : String) ≠ ""
      decide
    · rw [h]
      refine ⟨rfl, ?_⟩
      show ("API error" : String) ≠ ""
      decide
    · simp [h, hbm]
    · simp [h, hbm, hp]
  refine ⟨hres.1, hres.2, ?_⟩
  intro b menv hmenv hext hkw
  have hfound : (moderate cfg ngWords content env).found =
      checkContent ngWords content := by
    simp only [moderate]
    split
    · split
      · rename_i hblocked
        rw [hres.1] at hblocked
        cases hblocked
      · rfl
    · rfl
  simp only [middlewareStep, hext, hmenv]
  rw [hfound, hkw]
  rfl

/-- C6 witness: a network error on a clean prompt forwards the request
with a non-blocking diagnostic verdict. -/
theorem classifier_failure_fail_open_witness :
    ((checkWithLLM ⟨some "key", true⟩ ["bad"] "hello" envFetchErr).1.blocked
        = false ∧
      (checkWithLLM ⟨some "key", true⟩ ["bad"] "hello" envFetchErr).1.reason
        ≠ "" ∧
      (∀ (b : RequestBody) (menv : MwEnv), menv.llm = envFetchErr →
        extractContent b = .content "hello" →
        checkContent ["bad"] "hello" = none →
        (middlewareStep ⟨some "key", true⟩ ["bad"] (some b) menv).outcome =
          .forwarded)) :=
  classifier_failure_fail_open ⟨some "key", true⟩ ["bad"] "hello" envFetchErr
    rfl (by decide) (Or.inl rfl)

/-- C7 counterexample: with an API key configured, the feature flag on
and an empty policy word list, the classifier is invoked by the pipeline
but its guard clause returns before the HTTP call, and the invocation
writes no classifier-audit entry at all. -/
theorem classifier_invocation_without_audit :
    (middlewareStep ⟨some "key", true⟩ []
        (some ⟨none, some "hello", none, none⟩) mwEnvOk).moderation.llmInvoked
      = true ∧
    (middlewareStep ⟨some "key", true⟩ []
        (some ⟨none, some "hello", none, none⟩) mwEnvOk).moderation.llmAudits
      = [] := by
  constructor <;> rfl

/-- C7 amended: every classifier invocation that passes the guard clause
(an API key is present and the word list is non-empty) — whether the
call succeeds, fails, blocks or does not block — writes exactly one
classifier-audit entry, carrying the first 500 characters of the checked
content, the comma-joined word list, the verdict (blocked flag and
truthiness-filtered matched word), the call latency and the timestamp;
an invocation stopped by the guard clause writes none. -/
theorem classifier_audit_exactly_one
    (cfg : LLMConfig) (ngWords : List String) (content : String)
    (env : LLMEnv)
    (hkey : cfg.geminiApiKey.isSome = true) (hw : ngWords ≠ []) :
    ∃ e, (checkWithLLM cfg ngWords content env).2 = [e] ∧
      e.request_content = jsSubstring content 500 ∧
      e.ng_words_checked = String.intercalate ", " ngWords ∧
      e.timestamp = env.timestamp ∧
      e.duration = env.duration ∧
      e.blocked = (checkWithLLM cfg ngWords content env).1.blocked ∧
      e.matched_word =
        jsStrTruthy (checkWithLLM cfg ngWords content env).1.matched_word := by
  have hkey' : cfg.geminiApiKey.isNone = false := by
    cases h : cfg.geminiApiKey
    · rw [h] at hkey; cases hkey
    · rfl
  have hw' : ngWords.isEmpty = false := by
    cases ngWords
    · exact absurd rfl hw
    · rfl
  unfold checkWithLLM
  simp only [hkey', hw', Bool.or_self, Bool.false_eq_true, if_false]
  split
  · exact ⟨_, rfl, rfl, rfl, rfl, rfl, rfl, rfl⟩
  · split
    · exact ⟨_, rfl, rfl, rfl, rfl, rfl, rfl, rfl⟩
    · split
      · split
        · exact ⟨_, rfl, rfl, rfl, rfl, rfl, rfl, rfl⟩
        · exact ⟨_, rfl, rfl, rfl, rfl, rfl, rfl, rfl⟩
      · exact ⟨_, rfl, rfl, rfl, rfl, rfl, rfl, rfl⟩

/-- C7 amended witness: a failing invocation on a non-empty word list
writes exactly one classifier-audit entry with the expected fields. -/
theorem classifier_audit_exactly_one_witness :
    ∃ e, (checkWithLLM ⟨some "key", true⟩ ["bad"] "hello" envFetchErr).2 = [e] ∧
      e.request_content = jsSubstring "hello" 500 ∧
      e.ng_words_checked = String.intercalate ", " ["bad"] ∧
      e.timestamp = envFetchErr.timestamp ∧
      e.duration = envFetchErr.duration ∧
      e.blocked =
        (checkWithLLM ⟨some "key", true⟩ ["bad"] "hello" envFetchErr).1.blocked ∧
      e.matched_word = jsStrTruthy
        (checkWithLLM ⟨some "key", true⟩ ["bad"] "hello" envFetchErr).1.matched_word :=
  classifier_audit_exactly_one ⟨some "key", true⟩ ["bad"] "hello" envFetchErr
    rfl (by decide)

/-- C8: every blocked request with stream true and successful audit
writes receives exactly three writes in order — a data frame holding the
chat.completion.chunk whose delta carries the assistant role and the
full refusal text with null finish_reason, a data frame holding the
chunk with empty delta and finish_reason stop, and the data DONE
sentinel — under the three SSE headers Content-Type text/event-stream,
Cache-Control no-cache and Connection keep-alive. -/
theorem blocked_streaming_sse_frames
    (cfg : LLMConfig) (ngWords : List String) (env : MwEnv)
    (b : RequestBody) (s w : String)
    (hext : extractContent b = .content s)
    (hfound : jsStrTruthy (moderate cfg ngWords s env.llm).found = some w)
    (hstream : b.stream = some true)
    (hins : env.insertOk = true) (hupd : env.updateOk = true) :
    middlewareStep cfg ngWords (some b) env =
      ⟨.streamed
        [("Content-Type", "text/event-stream"),
         ("Cache-Control", "no-cache"),
         ("Connection", "keep-alive")]
        ["data: " ++ sseChunk1 ("blocked-" ++ toString env.now) (env.now / 1000)
            (jsModelName b.model)
            (friendlyMessage w
              (detectionText (moderate cfg ngWords s env.llm).blockedByLLM
                (moderate cfg ngWords s env.llm).llmReason)) ++ "\n\n",
         "data: " ++ sseChunk2 ("blocked-" ++ toString env.now) (env.now / 1000)
            (jsModelName b.model) ++ "\n\n",
         "data: [DONE]\n\n"],
        moderate cfg ngWords s env.llm⟩ := by
  simp only [middlewareStep, hext, hfound, hins, if_true]
  simp [respond, hstream, hupd, sseHeaders]

/-- A request body whose single user message matches the policy word,
asking for a streamed completion. -/
def streamBody : RequestBody :=
  { messages := some [⟨"user", some (.str "some bad text")⟩],
    prompt := none, stream := some true, model := some "gpt-4o" }

/-- C8 witness: the streamed refusal for a concrete blocked request. -/
theorem blocked_streaming_sse_frames_witness :
    middlewareStep ⟨none, false⟩ ["bad"] (some streamBody) mwEnvOk =
      ⟨.streamed
        [("Content-Type", "text/event-stream"),
         ("Cache-Control", "no-cache"),
         ("Connection", "keep-alive")]
        ["data: " ++ sseChunk1 ("blocked-" ++ toString mwEnvOk.now)
            (mwEnvOk.now / 1000) (jsModelName streamBody.model)
            (friendlyMessage "bad"
              (detectionText
                (moderate ⟨none, false⟩ ["bad"] "some bad text" mwEnvOk.llm).blockedByLLM
                (moderate ⟨none, false⟩ ["bad"] "some bad text" mwEnvOk.llm).llmReason))
            ++ "\n\n",
         "data: " ++ sseChunk2 ("blocked-" ++ toString mwEnvOk.now)
            (mwEnvOk.now / 1000) (jsModelName streamBody.model) ++ "\n\n",
         "data: [DONE]\n\n"],
        moderate ⟨none, false⟩ ["bad"] "some bad text" mwEnvOk.llm⟩ :=
  blocked_streaming_sse_frames ⟨none, false⟩ ["bad"] mwEnvOk streamBody
    "some bad text" "bad" rfl rfl rfl rfl rfl

/-- C9: every blocked request whose stream flag is not the boolean true,
with successful audit writes and a declared non-empty model, receives an
HTTP 200 with exactly one chat.completion object: a blocked identifier,
the creation timestamp, the echoed model, a single choice at index 0
holding the assistant refusal message with finish_reason stop, and a
usage block whose three counters are all zero. -/
theorem blocked_nonstreaming_json
    (cfg : LLMConfig) (ngWords : List String) (env : MwEnv)
    (b : RequestBody) (s w mdl : String)
    (hext : extractContent b = .content s)
    (hfound : jsStrTruthy (moderate cfg ngWords s env.llm).found = some w)
    (hstream : b.stream ≠ some true)
    (hins : env.insertOk = true) (hupd : env.updateOk = true)
    (hmdl : b.model = some mdl) (hmne : mdl ≠ "") :
    middlewareStep cfg ngWords (some b) env =
      ⟨.jsonBlocked 200
        { id := "blocked-" ++ toString env.now,
          object := "chat.completion",
          created := env.now / 1000,
          model := mdl,
          choices := [{ index := 0,
                        message := { role := "assistant",
                                     content := friendlyMessage w
                                       (detectionText
                                         (moderate cfg ngWords s env.llm).blockedByLLM
                                         (moderate cfg ngWords s env.llm).llmReason) },
                        finish_reason := "stop" }],
          usage := { prompt_tokens := 0, completion_tokens := 0,
                     total_tokens := 0 } },
        moderate cfg ngWords s env.llm⟩ := by
  have hbeq : (b.stream == some true) = false := by
    simp [hstream]
  have hmodel : jsModelName b.model = mdl := by
    rw [hmdl]
    simp [jsModelName, hmne]
  simp only [middlewareStep, hext, hfound, hins, if_true]
  simp [respond, hbeq, hupd, hmodel]

/-- A request body whose single user message matches the policy word,
with the stream flag absent. -/
def plainBody : RequestBody :=
  { messages := some [⟨"user", some (.str "some bad text")⟩],
    prompt := none, stream := none, model := some "gpt-4o" }

/-- C9 witness: the non-streaming refusal JSON for a concrete blocked
request. -/
theorem blocked_nonstreaming_json_witness :
    middlewareStep ⟨none, false⟩ ["bad"] (some plainBody) mwEnvOk =
      ⟨.jsonBlocked 200
        { id := "blocked-" ++ toString mwEnvOk.now,
          object := "chat.completion",
          created := mwEnvOk.now / 1000,
          model := "gpt-4o",
          choices := [{ index := 0,
                        message := { role := "assistant",
                                     content := friendlyMessage "bad"
                                       (detectionText
                                         (moderate ⟨none, false⟩ ["bad"]
                                           "some bad text" mwEnvOk.llm).blockedByLLM
                                         (moderate ⟨none, false⟩ ["bad"]
                                           "some bad text" mwEnvOk.llm).llmReason) },
                        finish_reason := "stop" }],
          usage := { prompt_tokens := 0, completion_tokens := 0,
                     total_tokens := 0 } },
        moderate ⟨none, false⟩ ["bad"] "some bad text" mwEnvOk.llm⟩ :=
  blocked_nonstreaming_json ⟨none, false⟩ ["bad"] mwEnvOk plainBody
    "some bad text" "bad" "gpt-4o" rfl rfl (by decide) rfl rfl rfl (by decide)

/-- The blocked single-user-turn request of the C1 scenario. -/
def bodyBouryoku : RequestBody :=
  { messages := some [⟨"user", some (.str "これは暴力的な話です")⟩],
    prompt := none, stream := none, model := some "gpt-4o" }

/-- A middleware environment whose audit-store insert throws. -/
def mwEnvInsertFail : MwEnv :=
  { llm := envFetchErr, insertOk := false, updateOk := true
    now := 1700000000000 }

/-- C1: the code forwards a policy-blocked request when the audit insert
fails.  The keyword tier matches the policy word, yet with a failing
audit-store insert the middleware outcome is forwarded — the caller
never receives the synthesized refusal and the request reaches the
upstream — whereas the same request with a successful insert receives
the refusal JSON.  The thrown persistence error is caught by the
surrounding try/catch (it is logged, not raised to the caller), but it
flips the block decision to forward, contradicting the claim. -/
theorem audit_insert_failure_forwards_blocked_request :
    checkContent ["暴力"] "これは暴力的な話です" = some "暴力" ∧
    (middlewareStep ⟨none, false⟩ ["暴力"] (some bodyBouryoku)
        mwEnvInsertFail).outcome = .forwarded ∧
    (middlewareStep ⟨none, false⟩ ["暴力"] (some bodyBouryoku)
        mwEnvOk).outcome =
      .jsonBlocked 200
        { id := "blocked-1700000000000",
          object := "chat.completion",
          created := 1700000000,
          model := "gpt-4o",
          choices := [{ index := 0,
                        message := { role := "assistant",
                                     content := friendlyMessage "暴力" "" },
                        finish_reason := "stop" }],
          usage := { prompt_tokens := 0, completion_tokens := 0,
                     total_tokens := 0 } } :=
  ⟨rfl, rfl, rfl⟩

end AIProxy
